import Mathlib

/-!
A shallow embedding of the request/response core of the go-github client
(package `github`), with proofs about the claims made by its specification.

Struct declarations and their JSON field tags are transcribed from the
package source (`github/doc_zh_CN.go`).  That file is a declaration-only
build of the package: it carries every struct, tag and function signature,
but no function bodies.  Where a body is needed it is modelled from the
specification and its doc comment, and marked `Modelled from the spec:`.
-/

/-- JSON values, the wire format of the GitHub v3 API.  Numbers are modelled
as integers, which covers every numeric field of the embedded structs. -/
inductive Json where
  | null
  | bool (b : Bool)
  | num (n : Int)
  | str (s : String)
  | arr (elems : List Json)
  | obj (fields : List (String × Json))

/-- The value of one Go struct field as seen by `encoding/json`.
Pointer-typed fields (`*T`) carry `Option`: `none` is the nil pointer.
Slice-typed fields carry the list of encoded elements (a nil slice and an
empty slice are identified, which is faithful for the `omitempty` tags the
embedded structs use on slices). -/
inductive GoVal where
  | ptr (v : Option Json)
  | slice (elems : List Json)

/-- Models Go's `encoding/json` treatment of a single struct field with tag
`json:"name"` or `json:"name,omitempty"`: a nil pointer is dropped under
`omitempty` and encoded as `null` otherwise; a set pointer always emits the
pointed-to value; a slice is dropped when empty under `omitempty`. -/
def marshalField (name : String) (omitempty : Bool) : GoVal → List (String × Json)
  | .ptr none => if omitempty then [] else [(name, Json.null)]
  | .ptr (some j) => [(name, j)]
  | .slice es => if omitempty && es.isEmpty then [] else [(name, Json.arr es)]

/-- Models Go's `encoding/json` encoding of a struct from its field
descriptors `(tag name, omitempty, value)`, in declaration order. -/
def marshalFields : List (String × Bool × GoVal) → List (String × Json)
  | [] => []
  | (n, om, v) :: rest => marshalField n om v ++ marshalFields rest

theorem marshalField_mem_key {n : String} {om : Bool} {v : GoVal} {k : String} {j : Json}
    (h : (k, j) ∈ marshalField n om v) : k = n := by
  rcases v with o | es
  · rcases o with _ | j'
    · simp only [marshalField] at h
      split at h <;> simp_all
    · simp_all [marshalField]
  · simp only [marshalField] at h
    split at h <;> simp_all

theorem mem_of_lookup_eq_some {k : String} {j : Json} {l : List (String × Json)}
    (h : l.lookup k = some j) : (k, j) ∈ l := by
  induction l with
  | nil => cases h
  | cons a t ih =>
    obtain ⟨m, b⟩ := a
    rw [List.lookup_cons] at h
    cases hbeq : k == m with
    | true =>
      rw [hbeq] at h
      injection h with h
      exact (eq_of_beq hbeq) ▸ h ▸ List.mem_cons_self _ _
    | false =>
      rw [hbeq] at h
      exact List.mem_cons_of_mem _ (ih h)

theorem lookup_append (k : String) (l₁ l₂ : List (String × Json)) :
    (l₁ ++ l₂).lookup k = (l₁.lookup k <|> l₂.lookup k) := by
  induction l₁ with
  | nil => rfl
  | cons a t ih =>
    obtain ⟨m, j⟩ := a
    by_cases h : k = m
    · subst h; simp [List.lookup]
    · simp [List.lookup, beq_false_of_ne h, ih]

theorem lookup_marshalFields_not_mem (ds : List (String × Bool × GoVal)) (k : String)
    (h : k ∉ ds.map (fun d => d.1)) : (marshalFields ds).lookup k = none := by
  induction ds with
  | nil => rfl
  | cons d rest ih =>
    obtain ⟨m, om, v⟩ := d
    simp only [List.map_cons, List.mem_cons] at h
    push_neg at h
    rw [marshalFields, lookup_append, ih h.2]
    have : (marshalField m om v).lookup k = none := by
      cases hl : (marshalField m om v).lookup k with
      | none => rfl
      | some j => exact absurd (marshalField_mem_key (mem_of_lookup_eq_some hl)) h.1
    simp [this]

theorem lookup_marshalFields_ptr (ds : List (String × Bool × GoVal)) (n : String)
    (om : Bool) (v : Option Json)
    (hmem : (n, om, GoVal.ptr v) ∈ ds) (hnd : (ds.map (fun d => d.1)).Nodup) :
    (marshalFields ds).lookup n =
      match v, om with
      | none, true => none
      | none, false => some Json.null
      | some j, _ => some j := by
  induction ds with
  | nil => cases hmem
  | cons d rest ih =>
    obtain ⟨m, om', v'⟩ := d
    rw [marshalFields, lookup_append]
    simp only [List.map_cons, List.nodup_cons] at hnd
    rcases List.mem_cons.mp hmem with heq | htail
    · injection heq with h1 h23
      injection h23 with h2 h3
      subst h1; subst h2; subst h3
      rcases v with _ | j
      · cases om with
        | true =>
          have h0 : marshalField n true (GoVal.ptr none) = [] := rfl
          have h1 : (marshalFields rest).lookup n = none :=
            lookup_marshalFields_not_mem rest n hnd.1
          simp [h0, h1]
        | false =>
          have h0 : marshalField n false (GoVal.ptr none) = [(n, Json.null)] := rfl
          simp [h0, List.lookup_cons]
      · have h0 : marshalField n om (GoVal.ptr (some j)) = [(n, j)] := rfl
        simp [h0, List.lookup_cons]
    · have hne : n ≠ m := by
        intro h
        exact hnd.1 (h ▸ List.mem_map_of_mem (fun d => d.1) htail)
      have hhead : (marshalField m om' v').lookup n = none := by
        cases hl : (marshalField m om' v').lookup n with
        | none => rfl
        | some j => exact absurd (marshalField_mem_key (mem_of_lookup_eq_some hl)) hne
      rw [hhead]
      simp only [Option.none_orElse]
      exact ih htail hnd.2

/-! ## Calendar time

The `Timestamp` adapter wraps Go's `time.Time`.  The source only declares
`type Timestamp struct { time.Time }` and the signatures of `Equal` and
`UnmarshalJSON`; the calendar arithmetic below models the standard
library's proleptic-Gregorian conversions (Hinnant's civil-from-days and
days-from-civil algorithms) at second granularity, which is the precision
of the Unix wire form. -/

/-- One instant broken into proleptic-Gregorian calendar fields (UTC). -/
@[ext]
structure CivilTime where
  year : Int
  month : Nat
  day : Nat
  hour : Nat
  minute : Nat
  second : Nat
deriving DecidableEq

def isLeap (y : Int) : Bool :=
  y % 4 == 0 && (y % 100 != 0 || y % 400 == 0)

def daysInMonth (y : Int) (m : Nat) : Nat :=
  if m = 2 then (if isLeap y then 29 else 28)
  else if m = 4 || m = 6 || m = 9 || m = 11 then 30 else 31

def validCivil (c : CivilTime) : Prop :=
  1 ≤ c.month ∧ c.month ≤ 12 ∧ 1 ≤ c.day ∧ c.day ≤ daysInMonth c.year c.month ∧
    c.hour ≤ 23 ∧ c.minute ≤ 59 ∧ c.second ≤ 59

instance validCivil_decidable (c : CivilTime) : Decidable (validCivil c) := by
  unfold validCivil; infer_instance

/-- The (possibly shifted) year whose March the date belongs to. -/
def civilYear (c : CivilTime) : Int := if c.month ≤ 2 then c.year - 1 else c.year

def civilEra (c : CivilTime) : Int := civilYear c / 400

/-- Year of era, in `[0, 399]`. -/
def civilYoe (c : CivilTime) : Nat := (civilYear c - civilEra c * 400).toNat

/-- March-based month index, in `[0, 11]`. -/
def civilMp (c : CivilTime) : Nat := (c.month + 9) % 12

/-- Day of the March-based year, in `[0, 365]`. -/
def civilDoy (c : CivilTime) : Nat := (153 * civilMp c + 2) / 5 + c.day - 1

/-- Day of era, in `[0, 146096]`. -/
def civilDoe (c : CivilTime) : Nat :=
  365 * civilYoe c + civilYoe c / 4 - civilYoe c / 100 + civilDoy c

/-- Day number of a calendar date counted from the Unix epoch 1970-01-01. -/
def civilToDays (c : CivilTime) : Int :=
  civilEra c * 146097 + (civilDoe c : Int) - 719468

/-- Recover year of era and day of year from a day of era. -/
def yoeDoyFromDoe (doe : Nat) : Nat × Nat :=
  let a := min (doe / 36524) 3
  let r1 := doe - 36524 * a
  let b := r1 / 1461
  let r2 := r1 - 1461 * b
  let c := min (r2 / 365) 3
  (100 * a + 4 * b + c, r2 - 365 * c)

def eraOfDays (z : Int) : Int := (z + 719468) / 146097

def doeOfDays (z : Int) : Nat := (z + 719468 - eraOfDays z * 146097).toNat

/-- Calendar month of a day of the March-based year. -/
def civilMonthFromDoy (doy : Nat) : Nat :=
  if (5 * doy + 2) / 153 < 10 then (5 * doy + 2) / 153 + 3 else (5 * doy + 2) / 153 - 9

/-- Day of month of a day of the March-based year. -/
def civilDayFromDoy (doy : Nat) : Nat :=
  doy - (153 * ((5 * doy + 2) / 153) + 2) / 5 + 1

/-- Calendar date `(year, month, day)` of a day number. -/
def civilFromDays (z : Int) : Int × Nat × Nat :=
  (eraOfDays z * 400 + (((yoeDoyFromDoe (doeOfDays z)).1 : Nat) : Int) +
      (if civilMonthFromDoy (yoeDoyFromDoe (doeOfDays z)).2 ≤ 2 then 1 else 0),
    civilMonthFromDoy (yoeDoyFromDoe (doeOfDays z)).2,
    civilDayFromDoy (yoeDoyFromDoe (doeOfDays z)).2)

def civilToSecs (c : CivilTime) : Int :=
  civilToDays c * 86400 + ((3600 * c.hour + 60 * c.minute + c.second : Nat) : Int)

def civilFromSecs (t : Int) : CivilTime :=
  let days := t / 86400
  let sod : Nat := (t - days * 86400).toNat
  let ymd := civilFromDays days
  { year := ymd.1, month := ymd.2.1, day := ymd.2.2,
    hour := sod / 3600, minute := sod % 3600 / 60, second := sod % 60 }

/-- Length of the March-based month `mp`, with February at its leap maximum. -/
def dimShift (mp : Nat) : Nat :=
  if mp = 11 then 29 else (153 * (mp + 1) + 2) / 5 - (153 * mp + 2) / 5

theorem isLeap_iff (y : Int) :
    isLeap y = true ↔ (y % 4 = 0 ∧ (y % 100 ≠ 0 ∨ y % 400 = 0)) := by
  simp [isLeap]

theorem yoeDoyFromDoe_spec (yoe doy : Nat) (h1 : yoe ≤ 399) (h2 : doy ≤ 365)
    (h3 : doy = 365 → yoe % 4 = 3 ∧ (yoe % 100 ≠ 99 ∨ yoe = 399)) :
    yoeDoyFromDoe (365 * yoe + yoe / 4 - yoe / 100 + doy) = (yoe, doy) := by
  simp only [yoeDoyFromDoe, Prod.mk.injEq]
  set X := 365 * yoe + yoe / 4 - yoe / 100 + doy with hX
  have h4 : min (X / 36524) 3 = yoe / 100 := by omega
  rw [h4]
  set r1 := X - 36524 * (yoe / 100) with hr1
  have h5 : r1 / 1461 = yoe / 4 - 25 * (yoe / 100) := by omega
  rw [h5]
  set r2 := r1 - 1461 * (yoe / 4 - 25 * (yoe / 100)) with hr2
  have h6 : min (r2 / 365) 3 = yoe % 4 := by omega
  rw [h6]
  omega

theorem mp_of_doy (mp d : Nat) (h1 : mp ≤ 11) (h2 : 1 ≤ d) (h3 : d ≤ dimShift mp) :
    (5 * ((153 * mp + 2) / 5 + d - 1) + 2) / 153 = mp := by
  interval_cases mp <;> simp [dimShift] at h3 <;> omega

theorem civilYoe_spec (c : CivilTime) :
    (civilYoe c : Int) = civilYear c - civilEra c * 400 ∧ civilYoe c ≤ 399 := by
  unfold civilYoe civilEra
  omega

theorem day_le_dimShift (c : CivilTime) (h : validCivil c) :
    c.day ≤ dimShift (civilMp c) := by
  obtain ⟨h1, h2, h3, h4, -⟩ := h
  unfold daysInMonth at h4
  unfold civilMp dimShift
  interval_cases hm : c.month <;> revert h4 <;> simp <;> split <;> omega

theorem civilDoy_le (c : CivilTime) (h : validCivil c) : civilDoy c ≤ 365 := by
  have hle := day_le_dimShift c h
  obtain ⟨h1, h2, h3, -⟩ := h
  unfold civilDoy
  unfold civilMp at hle ⊢
  interval_cases hm : c.month <;> simp [dimShift] at hle <;> omega

theorem civilDoy_eq_365 (c : CivilTime) (h : validCivil c) (h365 : civilDoy c = 365) :
    civilYoe c % 4 = 3 ∧ (civilYoe c % 100 ≠ 99 ∨ civilYoe c = 399) := by
  obtain ⟨h1, h2, h3, h4, -⟩ := h
  have hm2 : c.month = 2 ∧ c.day = 29 := by
    unfold civilDoy civilMp at h365
    interval_cases hm : c.month <;> simp [daysInMonth] at h4 <;> revert h365 <;>
      simp <;> omega
  have hleap : isLeap c.year = true := by
    have h4' := h4
    rw [hm2.1, hm2.2] at h4'
    unfold daysInMonth at h4'
    cases hl : isLeap c.year with
    | true => rfl
    | false => simp [hl] at h4'
  rw [isLeap_iff] at hleap
  have hy : civilYear c = c.year - 1 := by unfold civilYear; rw [hm2.1]; simp
  have hyoe := civilYoe_spec c
  omega

theorem civilDoe_le (c : CivilTime) (h : validCivil c) : civilDoe c ≤ 146096 := by
  have h1 := civilDoy_le c h
  have h2 := (civilYoe_spec c).2
  unfold civilDoe
  omega

theorem civilFromDays_civilToDays (c : CivilTime) (h : validCivil c) :
    civilFromDays (civilToDays c) = (c.year, c.month, c.day) := by
  have hdoe := civilDoe_le c h
  have hyoe := civilYoe_spec c
  have hera : eraOfDays (civilToDays c) = civilEra c := by
    unfold eraOfDays civilToDays
    omega
  have hdoe2 : doeOfDays (civilToDays c) = civilDoe c := by
    unfold doeOfDays
    rw [hera]
    unfold civilToDays
    omega
  have hrec : yoeDoyFromDoe (civilDoe c) = (civilYoe c, civilDoy c) := by
    unfold civilDoe
    exact yoeDoyFromDoe_spec _ _ hyoe.2 (civilDoy_le c h) (civilDoy_eq_365 c h)
  have hmp : (5 * civilDoy c + 2) / 153 = civilMp c :=
    mp_of_doy (civilMp c) c.day (by unfold civilMp; omega) h.2.2.1 (day_le_dimShift c h)
  have hm : civilMonthFromDoy (civilDoy c) = c.month := by
    unfold civilMonthFromDoy
    rw [hmp]
    unfold civilMp
    have h1 := h.1
    have h2 := h.2.1
    split <;> omega
  have hd : civilDayFromDoy (civilDoy c) = c.day := by
    unfold civilDayFromDoy
    rw [hmp]
    have h3 := h.2.2.1
    unfold civilDoy
    omega
  unfold civilFromDays
  rw [hdoe2, hrec, hera]
  simp only [Prod.mk.injEq]
  refine ⟨?_, hm, hd⟩
  rw [hm]
  have hyy : civilEra c * 400 + (civilYoe c : Int) = civilYear c := by omega
  rw [hyy]
  unfold civilYear
  split <;> omega

theorem civilFromSecs_civilToSecs (c : CivilTime) (h : validCivil c) :
    civilFromSecs (civilToSecs c) = c := by
  have hd := civilFromDays_civilToDays c h
  obtain ⟨-, -, -, -, h5, h6, h7⟩ := h
  have hsod : 3600 * c.hour + 60 * c.minute + c.second ≤ 86399 := by omega
  have hdays : civilToSecs c / 86400 = civilToDays c := by
    unfold civilToSecs
    omega
  have hrem : (civilToSecs c - civilToSecs c / 86400 * 86400).toNat
      = 3600 * c.hour + 60 * c.minute + c.second := by
    rw [hdays]
    unfold civilToSecs
    omega
  simp only [civilFromSecs]
  rw [hrem, hdays, hd]
  ext <;> simp <;> omega

/-! ## Decimal strings -/

def digitChar (n : Nat) : Char := Char.ofNat (48 + n)

def digit? (ch : Char) : Option Nat :=
  if 48 ≤ ch.toNat ∧ ch.toNat ≤ 57 then some (ch.toNat - 48) else none

theorem digitChar_toNat (k : Nat) (h : k < 10) : (digitChar k).toNat = 48 + k := by
  have : k = 0 ∨ k = 1 ∨ k = 2 ∨ k = 3 ∨ k = 4 ∨ k = 5 ∨ k = 6 ∨ k = 7 ∨ k = 8 ∨ k = 9 := by
    omega
  rcases this with rfl | rfl | rfl | rfl | rfl | rfl | rfl | rfl | rfl | rfl <;> decide

theorem digit?_digitChar (k : Nat) (h : k < 10) : digit? (digitChar k) = some k := by
  rw [digit?, digitChar_toNat k h, if_pos (by omega)]
  congr 1
  omega

theorem digit?_digitChar_mod (a : Nat) : digit? (digitChar (a % 10)) = some (a % 10) :=
  digit?_digitChar _ (Nat.mod_lt _ (by omega))

theorem digitChar_ne_neg (k : Nat) (h : k < 10) : digitChar k ≠ '-' := by
  intro he
  have := congrArg Char.toNat he
  rw [digitChar_toNat k h] at this
  simp at this
  omega

/-- Little-endian decimal digits of a natural number. -/
def natDigitsRev (n : Nat) : List Nat :=
  if h : n < 10 then [n]
  else n % 10 :: natDigitsRev (n / 10)
decreasing_by omega

/-- Models the decimal rendering produced by Go's `strconv`. -/
def natToString (n : Nat) : String := ⟨(natDigitsRev n).reverse.map digitChar⟩

def intToString (i : Int) : String :=
  if i < 0 then "-" ++ natToString (-i).toNat else natToString i.toNat

def digitsVal (cs : List Char) : Nat := cs.foldl (fun a ch => 10 * a + (ch.toNat - 48)) 0

def allDigits (cs : List Char) : Bool :=
  cs.all fun ch => decide (48 ≤ ch.toNat ∧ ch.toNat ≤ 57)

def parseNatList (cs : List Char) : Option Nat :=
  if cs.isEmpty then none else if allDigits cs then some (digitsVal cs) else none

/-- Models `strconv.ParseInt` at base 10 (64-bit overflow is not modelled). -/
def parseIntChars (cs : List Char) : Option Int :=
  match cs with
  | [] => none
  | ch :: rest =>
    if ch = '-' then (parseNatList rest).map fun n => -(n : Int)
    else (parseNatList (ch :: rest)).map fun n => (n : Int)

def parseInt? (s : String) : Option Int := parseIntChars s.data

theorem natDigitsRev_digits (n : Nat) : ∀ d ∈ natDigitsRev n, d < 10 := by
  induction n using Nat.strong_induction_on with
  | _ n ih =>
    unfold natDigitsRev
    split
    · intro d hd
      simp at hd
      omega
    · intro d hd
      rcases List.mem_cons.mp hd with rfl | hmem
      · omega
      · exact ih (n / 10) (by omega) d hmem

theorem natDigitsRev_ne_nil (n : Nat) : natDigitsRev n ≠ [] := by
  unfold natDigitsRev
  split <;> simp

theorem digitsVal_natToString (n : Nat) :
    digitsVal ((natDigitsRev n).reverse.map digitChar) = n := by
  induction n using Nat.strong_induction_on with
  | _ n ih =>
    unfold natDigitsRev
    split
    · simp [digitsVal, digitChar_toNat n (by omega)]
    · simp only [List.reverse_cons, List.map_append, List.map_cons, List.map_nil]
      rw [digitsVal, List.foldl_append]
      rw [show ∀ l, List.foldl (fun a ch => 10 * a + (ch.toNat - 48)) l [digitChar (n % 10)]
            = 10 * l + ((digitChar (n % 10)).toNat - 48) from fun l => rfl]
      rw [digitChar_toNat _ (by omega)]
      have := ih (n / 10) (by omega)
      rw [digitsVal] at this
      rw [this]
      omega

theorem allDigits_natToString (n : Nat) :
    allDigits ((natDigitsRev n).reverse.map digitChar) = true := by
  rw [allDigits, List.all_eq_true]
  intro ch hch
  rw [List.mem_map] at hch
  obtain ⟨d, hd, rfl⟩ := hch
  rw [List.mem_reverse] at hd
  have := natDigitsRev_digits n d hd
  rw [digitChar_toNat d this]
  simp only [decide_eq_true_eq]
  omega

theorem parseNatList_natToString (n : Nat) :
    parseNatList (natToString n).data = some n := by
  have hne : (natDigitsRev n).reverse.map digitChar ≠ [] := by
    simp [natDigitsRev_ne_nil n]
  rw [natToString]
  rw [show (String.mk ((natDigitsRev n).reverse.map digitChar)).data
        = (natDigitsRev n).reverse.map digitChar from rfl]
  rw [parseNatList, if_neg (by simp [natDigitsRev_ne_nil n]),
    if_pos (allDigits_natToString n), digitsVal_natToString n]

theorem natToString_head (n : Nat) :
    ∃ ch rest, (natToString n).data = ch :: rest ∧ ch ≠ '-' := by
  have hne : (natDigitsRev n).reverse.map digitChar ≠ [] := by
    simp [natDigitsRev_ne_nil n]
  obtain ⟨ch, rest, heq⟩ := List.exists_cons_of_ne_nil hne
  refine ⟨ch, rest, heq, ?_⟩
  have hmem : ch ∈ (natDigitsRev n).reverse.map digitChar := by
    rw [heq]; exact List.mem_cons_self _ _
  rw [List.mem_map] at hmem
  obtain ⟨d, hd, rfl⟩ := hmem
  rw [List.mem_reverse] at hd
  exact digitChar_ne_neg d (natDigitsRev_digits n d hd)

theorem parseInt?_intToString (i : Int) : parseInt? (intToString i) = some i := by
  rw [parseInt?, intToString]
  split
  · rw [show ("-" ++ natToString (-i).toNat).data = '-' :: (natToString (-i).toNat).data by
      simp]
    rw [parseIntChars, if_pos rfl, parseNatList_natToString]
    simp
    omega
  · obtain ⟨ch, rest, heq, hne⟩ := natToString_head i.toNat
    rw [heq, parseIntChars, if_neg hne, ← heq, parseNatList_natToString]
    simp
    omega

/-! ## RFC3339 rendering and parsing -/

def pad2 (n : Nat) : List Char := [digitChar (n / 10 % 10), digitChar (n % 10)]

def pad4 (n : Nat) : List Char :=
  [digitChar (n / 1000 % 10), digitChar (n / 100 % 10), digitChar (n / 10 % 10),
    digitChar (n % 10)]

/-- Models the canonical `time.RFC3339` rendering of a UTC instant,
`YYYY-MM-DDThh:mm:ssZ`. -/
def renderRFC3339Chars (c : CivilTime) : List Char :=
  pad4 c.year.toNat ++ '-' :: pad2 c.month ++ '-' :: pad2 c.day ++
    'T' :: pad2 c.hour ++ ':' :: pad2 c.minute ++ ':' :: pad2 c.second ++ ['Z']

/-- Models `time.Parse` of the quoted canonical RFC3339 format: the field
values are read off the fixed-width layout and validated. -/
def parseRFC3339Quoted (s : String) : Option CivilTime :=
  match s.data with
  | [q1, y1, y2, y3, y4, s1, m1, m2, s2, d1, d2, st, h1, h2, c1, n1, n2, c2, e1, e2, sz, q2] =>
    if q1 = '"' ∧ s1 = '-' ∧ s2 = '-' ∧ st = 'T' ∧ c1 = ':' ∧ c2 = ':' ∧ sz = 'Z' ∧ q2 = '"'
    then
      match digit? y1, digit? y2, digit? y3, digit? y4, digit? m1, digit? m2, digit? d1,
        digit? d2, digit? h1, digit? h2, digit? n1, digit? n2, digit? e1, digit? e2 with
      | some a, some b, some c', some d, some mo1, some mo2, some dd1, some dd2, some hh1,
          some hh2, some mi1, some mi2, some ss1, some ss2 =>
        let cv : CivilTime :=
          { year := ((1000 * a + 100 * b + 10 * c' + d : Nat) : Int),
            month := 10 * mo1 + mo2, day := 10 * dd1 + dd2,
            hour := 10 * hh1 + hh2, minute := 10 * mi1 + mi2, second := 10 * ss1 + ss2 }
        if validCivil cv then some cv else none
      | _, _, _, _, _, _, _, _, _, _, _, _, _, _ => none
    else none
  | _ => none

/-- Transcribed declaration: `type Timestamp struct { time.Time }`.  The
wrapped instant is modelled as Unix seconds. -/
structure Timestamp where
  Time : Int
deriving DecidableEq

/-- Transcribed doc contract: `Equal reports whether t and u are equal based
on time.Equal`, i.e. time-value equality. -/
def Timestamp.Equal (t u : Timestamp) : Bool := t.Time == u.Time

/-- Modelled from the spec: the body of `Timestamp.UnmarshalJSON` is absent
from the source file (only its signature and doc comment remain: "Time is
expected in RFC3339 or Unix format").  The raw JSON bytes are first read as
a Unix integer; failing that, as a quoted RFC3339 string. -/
def Timestamp.UnmarshalJSON (data : String) : Option Timestamp :=
  match parseInt? data with
  | some i => some ⟨i⟩
  | none => (parseRFC3339Quoted data).map fun c => ⟨civilToSecs c⟩

/-- Models the JSON encoding a `Timestamp` inherits from the embedded
`time.Time`: the quoted canonical RFC3339 rendering of the instant. -/
def Timestamp.MarshalJSON (t : Timestamp) : String :=
  ⟨'"' :: renderRFC3339Chars (civilFromSecs t.Time) ++ ['"']⟩

/-- The unquoted RFC3339 rendering, used when a `Timestamp` is embedded in
a larger JSON value. -/
def Timestamp.rfcString (t : Timestamp) : String :=
  ⟨renderRFC3339Chars (civilFromSecs t.Time)⟩

theorem parseIntChars_quote (L : List Char) : parseIntChars ('"' :: L) = none := by
  rw [parseIntChars, if_neg (by decide)]
  rw [show parseNatList ('"' :: L) = none by simp [parseNatList, allDigits]]
  rfl

theorem parseRFC3339Quoted_render (c : CivilTime) (h : validCivil c)
    (h0 : 0 ≤ c.year) (h9 : c.year ≤ 9999) :
    parseRFC3339Quoted ⟨'"' :: renderRFC3339Chars c ++ ['"']⟩ = some c := by
  obtain ⟨h1, h2, h3, h4, h5, h6, h7⟩ := h
  have hday : c.day ≤ 31 := by
    have h4' := h4
    unfold daysInMonth at h4'
    split at h4'
    · split at h4' <;> omega
    · split at h4' <;> omega
  have hp2 : ∀ k : Nat, k ≤ 99 → 10 * (k / 10 % 10) + k % 10 = k := by
    intro k hk
    omega
  have hy4 : 1000 * (c.year.toNat / 1000 % 10) + 100 * (c.year.toNat / 100 % 10) +
      10 * (c.year.toNat / 10 % 10) + c.year.toNat % 10 = c.year.toNat := by
    omega
  simp only [parseRFC3339Quoted,
    show (⟨'"' :: renderRFC3339Chars c ++ ['"']⟩ : String).data
        = ('"' :: renderRFC3339Chars c) ++ ['"'] from rfl,
    renderRFC3339Chars, pad4, pad2, List.cons_append, List.nil_append, List.append_assoc,
    digit?_digitChar_mod, and_self, if_true]
  rw [hy4, hp2 c.month (by omega), hp2 c.day (by omega), hp2 c.hour (by omega),
    hp2 c.minute (by omega), hp2 c.second (by omega), Int.toNat_of_nonneg h0]
  rw [if_pos (show validCivil ⟨c.year, c.month, c.day, c.hour, c.minute, c.second⟩ from
    ⟨h1, h2, h3, h4, h5, h6, h7⟩)]

theorem UnmarshalJSON_quoted_render (c : CivilTime) (h : validCivil c)
    (h0 : 0 ≤ c.year) (h9 : c.year ≤ 9999) :
    Timestamp.UnmarshalJSON ⟨'"' :: renderRFC3339Chars c ++ ['"']⟩
      = some ⟨civilToSecs c⟩ := by
  rw [Timestamp.UnmarshalJSON]
  rw [show parseInt? ⟨'"' :: renderRFC3339Chars c ++ ['"']⟩
        = parseIntChars ('"' :: (renderRFC3339Chars c ++ ['"'])) from ?_]
  · rw [parseIntChars_quote, parseRFC3339Quoted_render c h h0 h9]
    rfl
  · rw [parseInt?]
    rfl

theorem UnmarshalJSON_intToString (i : Int) :
    Timestamp.UnmarshalJSON (intToString i) = some ⟨i⟩ := by
  rw [Timestamp.UnmarshalJSON, parseInt?_intToString]

theorem MarshalJSON_civilToSecs (c : CivilTime) (h : validCivil c) :
    Timestamp.MarshalJSON ⟨civilToSecs c⟩ = ⟨'"' :: renderRFC3339Chars c ++ ['"']⟩ := by
  rw [Timestamp.MarshalJSON]
  rw [show (⟨civilToSecs c⟩ : Timestamp).Time = civilToSecs c from rfl]
  rw [civilFromSecs_civilToSecs c h]


/-! ## Resource structs

Transcribed from the source declarations with their JSON tags.  Pointer
fields become `Option`; each struct's `fieldDescrs` lists its fields in
declaration order as `(tag name, omitempty, value)` descriptors for the
`encoding/json` model above, and `json` is its encoded value.  The `fd…`
helpers build one descriptor per Go field type. -/

def fdStr (n : String) (om : Bool) (v : Option String) : String × Bool × GoVal :=
  (n, om, GoVal.ptr (v.map Json.str))

def fdNum (n : String) (om : Bool) (v : Option Int) : String × Bool × GoVal :=
  (n, om, GoVal.ptr (v.map Json.num))

def fdBool (n : String) (om : Bool) (v : Option Bool) : String × Bool × GoVal :=
  (n, om, GoVal.ptr (v.map Json.bool))

def fdTime (n : String) (om : Bool) (v : Option Timestamp) : String × Bool × GoVal :=
  (n, om, GoVal.ptr (v.map fun t => Json.str t.rfcString))

def fdObj (n : String) (om : Bool) (v : Option Json) : String × Bool × GoVal :=
  (n, om, GoVal.ptr v)

def fdSlice (n : String) (om : Bool) (v : List Json) : String × Bool × GoVal :=
  (n, om, GoVal.slice v)

/-- Transcribed from the source: `type Plan struct`. -/
structure Plan where
  Name : Option String
  Space : Option Int
  Collaborators : Option Int
  PrivateRepos : Option Int

def Plan.fieldDescrs (p : Plan) : List (String × Bool × GoVal) :=
  [fdStr "name" true p.Name,
    fdNum "space" true p.Space,
    fdNum "collaborators" true p.Collaborators,
    fdNum "private_repos" true p.PrivateRepos]

def Plan.json (p : Plan) : Json := Json.obj (marshalFields p.fieldDescrs)

/-- Transcribed from the source: `type Match struct`. -/
structure Match where
  Text : Option String
  Indices : List Int

def Match.fieldDescrs (m : Match) : List (String × Bool × GoVal) :=
  [fdStr "text" true m.Text,
    fdSlice "indices" true (m.Indices.map Json.num)]

def Match.json (m : Match) : Json := Json.obj (marshalFields m.fieldDescrs)

/-- Transcribed from the source: `type TextMatch struct`. -/
structure TextMatch where
  ObjectURL : Option String
  ObjectType : Option String
  Property : Option String
  Fragment : Option String
  Matches : List Match

def TextMatch.fieldDescrs (tm : TextMatch) : List (String × Bool × GoVal) :=
  [fdStr "object_url" true tm.ObjectURL,
    fdStr "object_type" true tm.ObjectType,
    fdStr "property" true tm.Property,
    fdStr "fragment" true tm.Fragment,
    fdSlice "matches" true (tm.Matches.map Match.json)]

def TextMatch.json (tm : TextMatch) : Json := Json.obj (marshalFields tm.fieldDescrs)

/-- Transcribed from the source: `type GitObject struct`.  Its three pointer
fields are tagged `json:"type"`, `json:"sha"`, `json:"url"` — none carries
`omitempty`.  (`Type` is a reserved word in Lean, hence `Type'`.) -/
structure GitObject where
  Type' : Option String
  SHA : Option String
  URL : Option String

def GitObject.fieldDescrs (g : GitObject) : List (String × Bool × GoVal) :=
  [fdStr "type" false g.Type',
    fdStr "sha" false g.SHA,
    fdStr "url" false g.URL]

def GitObject.json (g : GitObject) : Json := Json.obj (marshalFields g.fieldDescrs)

/-- Transcribed from the source: `type User struct`.  Every pointer field of
`User` carries `omitempty`. -/
structure User where
  Login : Option String
  ID : Option Int
  AvatarURL : Option String
  HTMLURL : Option String
  GravatarID : Option String
  Name : Option String
  Company : Option String
  Blog : Option String
  Location : Option String
  Email : Option String
  Hireable : Option Bool
  Bio : Option String
  PublicRepos : Option Int
  PublicGists : Option Int
  Followers : Option Int
  Following : Option Int
  CreatedAt : Option Timestamp
  UpdatedAt : Option Timestamp
  Type' : Option String
  SiteAdmin : Option Bool
  TotalPrivateRepos : Option Int
  OwnedPrivateRepos : Option Int
  PrivateGists : Option Int
  DiskUsage : Option Int
  Collaborators : Option Int
  Plan : Option Plan
  URL : Option String
  EventsURL : Option String
  FollowingURL : Option String
  FollowersURL : Option String
  GistsURL : Option String
  OrganizationsURL : Option String
  ReceivedEventsURL : Option String
  ReposURL : Option String
  StarredURL : Option String
  SubscriptionsURL : Option String
  TextMatches : List TextMatch

def User.fieldDescrs (u : User) : List (String × Bool × GoVal) :=
  [fdStr "login" true u.Login,
    fdNum "id" true u.ID,
    fdStr "avatar_url" true u.AvatarURL,
    fdStr "html_url" true u.HTMLURL,
    fdStr "gravatar_id" true u.GravatarID,
    fdStr "name" true u.Name,
    fdStr "company" true u.Company,
    fdStr "blog" true u.Blog,
    fdStr "location" true u.Location,
    fdStr "email" true u.Email,
    fdBool "hireable" true u.Hireable,
    fdStr "bio" true u.Bio,
    fdNum "public_repos" true u.PublicRepos,
    fdNum "public_gists" true u.PublicGists,
    fdNum "followers" true u.Followers,
    fdNum "following" true u.Following,
    fdTime "created_at" true u.CreatedAt,
    fdTime "updated_at" true u.UpdatedAt,
    fdStr "type" true u.Type',
    fdBool "site_admin" true u.SiteAdmin,
    fdNum "total_private_repos" true u.TotalPrivateRepos,
    fdNum "owned_private_repos" true u.OwnedPrivateRepos,
    fdNum "private_gists" true u.PrivateGists,
    fdNum "disk_usage" true u.DiskUsage,
    fdNum "collaborators" true u.Collaborators,
    fdObj "plan" true (u.Plan.map Plan.json),
    fdStr "url" true u.URL,
    fdStr "events_url" true u.EventsURL,
    fdStr "following_url" true u.FollowingURL,
    fdStr "followers_url" true u.FollowersURL,
    fdStr "gists_url" true u.GistsURL,
    fdStr "organizations_url" true u.OrganizationsURL,
    fdStr "received_events_url" true u.ReceivedEventsURL,
    fdStr "repos_url" true u.ReposURL,
    fdStr "starred_url" true u.StarredURL,
    fdStr "subscriptions_url" true u.SubscriptionsURL,
    fdSlice "text_matches" true (u.TextMatches.map TextMatch.json)]

def User.json (u : User) : Json := Json.obj (marshalFields u.fieldDescrs)

/-- Transcribed from the source: `type Organization struct`. -/
structure Organization where
  Login : Option String
  ID : Option Int
  AvatarURL : Option String
  HTMLURL : Option String
  Name : Option String
  Company : Option String
  Blog : Option String
  Location : Option String
  Email : Option String
  PublicRepos : Option Int
  PublicGists : Option Int
  Followers : Option Int
  Following : Option Int
  CreatedAt : Option Timestamp
  UpdatedAt : Option Timestamp
  TotalPrivateRepos : Option Int
  OwnedPrivateRepos : Option Int
  PrivateGists : Option Int
  DiskUsage : Option Int
  Collaborators : Option Int
  BillingEmail : Option String
  Type' : Option String
  Plan : Option Plan
  URL : Option String
  EventsURL : Option String
  MembersURL : Option String
  PublicMembersURL : Option String
  ReposURL : Option String

def Organization.fieldDescrs (o : Organization) : List (String × Bool × GoVal) :=
  [fdStr "login" true o.Login,
    fdNum "id" true o.ID,
    fdStr "avatar_url" true o.AvatarURL,
    fdStr "html_url" true o.HTMLURL,
    fdStr "name" true o.Name,
    fdStr "company" true o.Company,
    fdStr "blog" true o.Blog,
    fdStr "location" true o.Location,
    fdStr "email" true o.Email,
    fdNum "public_repos" true o.PublicRepos,
    fdNum "public_gists" true o.PublicGists,
    fdNum "followers" true o.Followers,
    fdNum "following" true o.Following,
    fdTime "created_at" true o.CreatedAt,
    fdTime "updated_at" true o.UpdatedAt,
    fdNum "total_private_repos" true o.TotalPrivateRepos,
    fdNum "owned_private_repos" true o.OwnedPrivateRepos,
    fdNum "private_gists" true o.PrivateGists,
    fdNum "disk_usage" true o.DiskUsage,
    fdNum "collaborators" true o.Collaborators,
    fdStr "billing_email" true o.BillingEmail,
    fdStr "type" true o.Type',
    fdObj "plan" true (o.Plan.map Plan.json),
    fdStr "url" true o.URL,
    fdStr "events_url" true o.EventsURL,
    fdStr "members_url" true o.MembersURL,
    fdStr "public_members_url" true o.PublicMembersURL,
    fdStr "repos_url" true o.ReposURL]

def Organization.json (o : Organization) : Json := Json.obj (marshalFields o.fieldDescrs)

/-- Insertion of one entry into a key-sorted association list, used to model
the sorted-key encoding of Go maps. -/
def insertEntry (e : String × Bool) : List (String × Bool) → List (String × Bool)
  | [] => [e]
  | f :: rest => if e.1 < f.1 then e :: f :: rest else f :: insertEntry e rest

def sortEntries (l : List (String × Bool)) : List (String × Bool) := l.foldr insertEntry []

def mapJson (l : List (String × Bool)) : Json :=
  Json.obj ((sortEntries l).map fun p => (p.1, Json.bool p.2))

/-- Transcribed from the source: `type Repository struct`.  `Parent` and
`Source` are recursive back-references, so the struct is an inductive type;
`Fork`, `Private`, `HasIssues`, `HasWiki`, `HasDownloads` and `TeamID` are
tagged without `omitempty`. -/
inductive Repository where
  | mk
      (id : Option Int)
      (owner : Option User)
      (name : Option String)
      (fullName : Option String)
      (description : Option String)
      (homepage : Option String)
      (defaultBranch : Option String)
      (masterBranch : Option String)
      (createdAt : Option Timestamp)
      (pushedAt : Option Timestamp)
      (updatedAt : Option Timestamp)
      (htmlURL : Option String)
      (cloneURL : Option String)
      (gitURL : Option String)
      (mirrorURL : Option String)
      (sshURL : Option String)
      (svnURL : Option String)
      (language : Option String)
      (fork : Option Bool)
      (forksCount : Option Int)
      (networkCount : Option Int)
      (openIssuesCount : Option Int)
      (stargazersCount : Option Int)
      (subscribersCount : Option Int)
      (watchersCount : Option Int)
      (size : Option Int)
      (autoInit : Option Bool)
      (parent : Option Repository)
      (source : Option Repository)
      (organization : Option Organization)
      (permissions : Option (List (String × Bool)))
      (priv : Option Bool)
      (hasIssues : Option Bool)
      (hasWiki : Option Bool)
      (hasDownloads : Option Bool)
      (teamID : Option Int)
      (url : Option String)
      (archiveURL : Option String)
      (assigneesURL : Option String)
      (blobsURL : Option String)
      (branchesURL : Option String)
      (collaboratorsURL : Option String)
      (commentsURL : Option String)
      (commitsURL : Option String)
      (compareURL : Option String)
      (contentsURL : Option String)
      (contributorsURL : Option String)
      (downloadsURL : Option String)
      (eventsURL : Option String)
      (forksURL : Option String)
      (gitCommitsURL : Option String)
      (gitRefsURL : Option String)
      (gitTagsURL : Option String)
      (hooksURL : Option String)
      (issueCommentURL : Option String)
      (issueEventsURL : Option String)
      (issuesURL : Option String)
      (keysURL : Option String)
      (labelsURL : Option String)
      (languagesURL : Option String)
      (mergesURL : Option String)
      (milestonesURL : Option String)
      (notificationsURL : Option String)
      (pullsURL : Option String)
      (releasesURL : Option String)
      (stargazersURL : Option String)
      (statusesURL : Option String)
      (subscribersURL : Option String)
      (subscriptionURL : Option String)
      (tagsURL : Option String)
      (treesURL : Option String)
      (teamsURL : Option String)
      (textMatches : List TextMatch)
      : Repository

def Repository.fieldDescrs : Repository → List (String × Bool × GoVal)
  | .mk id owner name fullName description homepage defaultBranch masterBranch
      createdAt pushedAt updatedAt htmlURL cloneURL gitURL mirrorURL sshURL svnURL
      language fork forksCount networkCount openIssuesCount stargazersCount
      subscribersCount watchersCount size autoInit parent source organization
      permissions priv hasIssues hasWiki hasDownloads teamID url archiveURL
      assigneesURL blobsURL branchesURL collaboratorsURL commentsURL commitsURL
      compareURL contentsURL contributorsURL downloadsURL eventsURL forksURL
      gitCommitsURL gitRefsURL gitTagsURL hooksURL issueCommentURL issueEventsURL
      issuesURL keysURL labelsURL languagesURL mergesURL milestonesURL
      notificationsURL pullsURL releasesURL stargazersURL statusesURL
      subscribersURL subscriptionURL tagsURL treesURL teamsURL textMatches =>
    [fdNum "id" true id,
      fdObj "owner" true (owner.map User.json),
      fdStr "name" true name,
      fdStr "full_name" true fullName,
      fdStr "description" true description,
      fdStr "homepage" true homepage,
      fdStr "default_branch" true defaultBranch,
      fdStr "master_branch" true masterBranch,
      fdTime "created_at" true createdAt,
      fdTime "pushed_at" true pushedAt,
      fdTime "updated_at" true updatedAt,
      fdStr "html_url" true htmlURL,
      fdStr "clone_url" true cloneURL,
      fdStr "git_url" true gitURL,
      fdStr "mirror_url" true mirrorURL,
      fdStr "ssh_url" true sshURL,
      fdStr "svn_url" true svnURL,
      fdStr "language" true language,
      fdBool "fork" false fork,
      fdNum "forks_count" true forksCount,
      fdNum "network_count" true networkCount,
      fdNum "open_issues_count" true openIssuesCount,
      fdNum "stargazers_count" true stargazersCount,
      fdNum "subscribers_count" true subscribersCount,
      fdNum "watchers_count" true watchersCount,
      fdNum "size" true size,
      fdBool "auto_init" true autoInit,
      fdObj "parent" true
        (match parent with
          | none => none
          | some p => some (Json.obj (marshalFields (Repository.fieldDescrs p)))),
      fdObj "source" true
        (match source with
          | none => none
          | some p => some (Json.obj (marshalFields (Repository.fieldDescrs p)))),
      fdObj "organization" true (organization.map Organization.json),
      fdObj "permissions" true (permissions.map mapJson),
      fdBool "private" false priv,
      fdBool "has_issues" false hasIssues,
      fdBool "has_wiki" false hasWiki,
      fdBool "has_downloads" false hasDownloads,
      fdNum "team_id" false teamID,
      fdStr "url" true url,
      fdStr "archive_url" true archiveURL,
      fdStr "assignees_url" true assigneesURL,
      fdStr "blobs_url" true blobsURL,
      fdStr "branches_url" true branchesURL,
      fdStr "collaborators_url" true collaboratorsURL,
      fdStr "comments_url" true commentsURL,
      fdStr "commits_url" true commitsURL,
      fdStr "compare_url" true compareURL,
      fdStr "contents_url" true contentsURL,
      fdStr "contributors_url" true contributorsURL,
      fdStr "downloads_url" true downloadsURL,
      fdStr "events_url" true eventsURL,
      fdStr "forks_url" true forksURL,
      fdStr "git_commits_url" true gitCommitsURL,
      fdStr "git_refs_url" true gitRefsURL,
      fdStr "git_tags_url" true gitTagsURL,
      fdStr "hooks_url" true hooksURL,
      fdStr "issue_comment_url" true issueCommentURL,
      fdStr "issue_events_url" true issueEventsURL,
      fdStr "issues_url" true issuesURL,
      fdStr "keys_url" true keysURL,
      fdStr "labels_url" true labelsURL,
      fdStr "languages_url" true languagesURL,
      fdStr "merges_url" true mergesURL,
      fdStr "milestones_url" true milestonesURL,
      fdStr "notifications_url" true notificationsURL,
      fdStr "pulls_url" true pullsURL,
      fdStr "releases_url" true releasesURL,
      fdStr "stargazers_url" true stargazersURL,
      fdStr "statuses_url" true statusesURL,
      fdStr "subscribers_url" true subscribersURL,
      fdStr "subscription_url" true subscriptionURL,
      fdStr "tags_url" true tagsURL,
      fdStr "trees_url" true treesURL,
      fdStr "teams_url" true teamsURL,
      fdSlice "text_matches" true (textMatches.map TextMatch.json)]

def Repository.json (r : Repository) : Json := Json.obj (marshalFields r.fieldDescrs)

/-- Transcribed from the source: `type Event struct`.  `Public` is tagged
`json:"public"` with no `omitempty`; every other pointer field carries
`omitempty`.  `RawPayload` models `*json.RawMessage` by the raw JSON value. -/
structure Event where
  Type' : Option String
  Public : Option Bool
  RawPayload : Option Json
  Repo : Option Repository
  Actor : Option User
  Org : Option Organization
  CreatedAt : Option Timestamp
  ID : Option String

def Event.fieldDescrs (e : Event) : List (String × Bool × GoVal) :=
  [fdStr "type" true e.Type',
    fdBool "public" false e.Public,
    fdObj "payload" true e.RawPayload,
    fdObj "repo" true (e.Repo.map Repository.json),
    fdObj "actor" true (e.Actor.map User.json),
    fdObj "org" true (e.Org.map Organization.json),
    fdTime "created_at" true e.CreatedAt,
    fdStr "id" true e.ID]

def Event.json (e : Event) : Json := Json.obj (marshalFields e.fieldDescrs)

/-! ## HTTP responses and the error classifier -/

/-- Models the part of `net/http.Response` that the core consumes: status
code, status text, headers and a fully-read body. -/
structure HttpResponse where
  statusCode : Nat
  status : String
  headers : List (String × String)
  body : String
deriving DecidableEq

/-- Transcribed from the source: `type Error struct` with tags
`json:"resource"`, `json:"field"`, `json:"code"`. -/
structure Error where
  Resource : String
  Field : String
  Code : String
deriving DecidableEq

/-- Transcribed from the source: `type ErrorResponse struct` with fields
`Response *http.Response`, `Message string` (tag `json:"message"`) and
`Errors []Error` (tag `json:"errors"`). -/
structure ErrorResponse where
  Response : HttpResponse
  Message : String
  Errors : List Error
deriving DecidableEq

/-- The two error shapes the spec's classifier can produce: a structured
`ErrorResponse`, or a status-only fallback carrying the raw response. -/
inductive APIError where
  | structured (er : ErrorResponse)
  | statusOnly (statusCode : Nat) (status : String) (raw : HttpResponse)
deriving DecidableEq

def lbrace : Char := Char.ofNat 123

def rbrace : Char := Char.ofNat 125

def isWsChar (ch : Char) : Bool := ch = ' ' || ch = '\n' || ch = '\t' || ch = '\r'

def skipWs : List Char → List Char
  | [] => []
  | ch :: rest => if isWsChar ch then skipWs rest else ch :: rest

def isDigitChar (ch : Char) : Bool := decide (48 ≤ ch.toNat ∧ ch.toNat ≤ 57)

/-- JSON string literal body (after the opening quote), with the common
escapes; `\u` escapes are outside the modelled fragment. -/
def parseStringLit : List Char → List Char → Option (String × List Char)
  | acc, [] => none
  | acc, ch :: rest =>
    if ch = '"' then some (⟨acc.reverse⟩, rest)
    else if ch = '\\' then
      match rest with
      | [] => none
      | e :: rest2 =>
        if e = '"' ∨ e = '\\' ∨ e = '/' then parseStringLit (e :: acc) rest2
        else if e = 'n' then parseStringLit ('\n' :: acc) rest2
        else if e = 't' then parseStringLit ('\t' :: acc) rest2
        else if e = 'r' then parseStringLit ('\r' :: acc) rest2
        else none
    else parseStringLit (ch :: acc) rest

def parseNumberLit (cs : List Char) : Option (Int × List Char) :=
  match cs with
  | '-' :: rest =>
    let ds := rest.takeWhile isDigitChar
    if ds.isEmpty then none else some (-(digitsVal ds : Int), rest.drop ds.length)
  | _ =>
    let ds := cs.takeWhile isDigitChar
    if ds.isEmpty then none else some ((digitsVal ds : Int), cs.drop ds.length)

mutual

/-- Models `encoding/json` parsing of one JSON value (fuel-bounded recursive
descent; numbers are integers, which covers the error bodies the classifier
decodes). -/
def parseVal : Nat → List Char → Option (Json × List Char)
  | 0, _ => none
  | fuel + 1, cs =>
    match skipWs cs with
    | [] => none
    | ch :: rest =>
      if ch = '"' then (parseStringLit [] rest).map fun p => (Json.str p.1, p.2)
      else if ch = lbrace then
        match skipWs rest with
        | ch2 :: rest2 =>
          if ch2 = rbrace then some (Json.obj [], rest2)
          else parseMembers fuel (ch2 :: rest2) []
        | [] => none
      else if ch = '[' then
        match skipWs rest with
        | ch2 :: rest2 =>
          if ch2 = ']' then some (Json.arr [], rest2)
          else parseElems fuel (ch2 :: rest2) []
        | [] => none
      else if ch = 't' then
        match rest with
        | 'r' :: 'u' :: 'e' :: rest2 => some (Json.bool true, rest2)
        | _ => none
      else if ch = 'f' then
        match rest with
        | 'a' :: 'l' :: 's' :: 'e' :: rest2 => some (Json.bool false, rest2)
        | _ => none
      else if ch = 'n' then
        match rest with
        | 'u' :: 'l' :: 'l' :: rest2 => some (Json.null, rest2)
        | _ => none
      else (parseNumberLit (ch :: rest)).map fun p => (Json.num p.1, p.2)

def parseElems : Nat → List Char → List Json → Option (Json × List Char)
  | 0, _, _ => none
  | fuel + 1, cs, acc =>
    match parseVal fuel cs with
    | none => none
    | some (j, rest) =>
      match skipWs rest with
      | ',' :: rest2 => parseElems fuel rest2 (j :: acc)
      | ']' :: rest2 => some (Json.arr (j :: acc).reverse, rest2)
      | _ => none

def parseMembers : Nat → List Char → List (String × Json) → Option (Json × List Char)
  | 0, _, _ => none
  | fuel + 1, cs, acc =>
    match skipWs cs with
    | qh :: rest =>
      if qh = '"' then
        match parseStringLit [] rest with
        | none => none
        | some (k, rest2) =>
          match skipWs rest2 with
          | ':' :: rest3 =>
            match parseVal fuel rest3 with
            | none => none
            | some (v, rest4) =>
              match skipWs rest4 with
              | ',' :: rest5 => parseMembers fuel rest5 ((k, v) :: acc)
              | ch :: rest5 =>
                if ch = rbrace then some (Json.obj ((k, v) :: acc).reverse, rest5)
                else none
              | [] => none
          | _ => none
      else none
    | [] => none

end

def parseJsonDoc (s : String) : Option Json :=
  match parseVal (s.length + 1) s.data with
  | some (j, rest) => if (skipWs rest).isEmpty then some j else none
  | none => none

/-- Models `encoding/json` unmarshalling of one string-typed struct field: a
missing key or JSON `null` leaves the zero value, a string sets it, any
other shape is a type mismatch. -/
def getStringField (fields : List (String × Json)) (k : String) : Option String :=
  match fields.lookup k with
  | none => some ""
  | some (Json.str s) => some s
  | some Json.null => some ""
  | some _ => none

def decodeError1 : Json → Option Error
  | Json.obj fields => do
    let r ← getStringField fields "resource"
    let f ← getStringField fields "field"
    let c ← getStringField fields "code"
    some { Resource := r, Field := f, Code := c }
  | _ => none

def decodeErrors (fields : List (String × Json)) : Option (List Error) :=
  match fields.lookup "errors" with
  | none => some []
  | some Json.null => some []
  | some (Json.arr xs) => xs.mapM decodeError1
  | some _ => none

/-- Models `json.Unmarshal` of a response body into the `ErrorResponse`
shape: the body must be a JSON object; `message` and `errors` are read with
Go's missing-key and type-mismatch behaviour. -/
def decodeErrorResponse (body : String) : Option (String × List Error) :=
  match parseJsonDoc body with
  | some (Json.obj fields) => do
    let msg ← getStringField fields "message"
    let errs ← decodeErrors fields
    some (msg, errs)
  | _ => none

/-- Modelled from the spec: the body of `CheckResponse` is absent from the
source file (only its declaration and doc comment remain: "A response is
considered an error if it has a status code outside the 200 range.  API
error responses are expected to have either no response body, or a JSON
response body that maps to ErrorResponse.  Any other response body will be
silently ignored.").  Per the spec's two-tier classifier: a 200–299 status
is success; otherwise the body is decoded as an `ErrorResponse` and, when
it is empty or does not match that shape, an opaque error carrying only the
status and the raw response is returned. -/
def CheckResponse (r : HttpResponse) : Option APIError :=
  if 200 ≤ r.statusCode ∧ r.statusCode ≤ 299 then none
  else
    match decodeErrorResponse r.body with
    | some (msg, errs) =>
      some (.structured { Response := r, Message := msg, Errors := errs })
    | none => some (.statusOnly r.statusCode r.status r)

/-! ## Pagination, rate limits and the response envelope -/

/-- Split a character list on every occurrence of a separator character. -/
def splitOnChar (c : Char) : List Char → List (List Char)
  | [] => [[]]
  | ch :: rest =>
    if ch = c then [] :: splitOnChar c rest
    else
      match splitOnChar c rest with
      | s :: ss => (ch :: s) :: ss
      | [] => [[ch]]

/-- Drop ASCII spaces from both ends of a character list. -/
def trimSpaces (cs : List Char) : List Char :=
  ((cs.dropWhile (· = ' ')).reverse.dropWhile (· = ' ')).reverse

/-- Split at the first `?`, dropping it; the second component is empty when
there is none. -/
def breakQ : List Char → List Char × List Char
  | [] => ([], [])
  | ch :: rest =>
    if ch = '?' then ([], rest)
    else ((breakQ rest).1.cons ch, (breakQ rest).2)

/-- Split at the first `=`, dropping it; the second component is empty when
there is none. -/
def breakEq : List Char → List Char × List Char
  | [] => ([], [])
  | ch :: rest =>
    if ch = '=' then ([], rest)
    else ((breakEq rest).1.cons ch, (breakEq rest).2)

/-- First `rel="…"` parameter of a Link-header segment. -/
def findRel (params : List (List Char)) : Option (List Char) :=
  params.findSome? fun p =>
    match p with
    | 'r' :: 'e' :: 'l' :: '=' :: '"' :: rest =>
      if rest.getLast? = some '"' then some rest.dropLast else none
    | _ => none

/-- Modelled from the spec: one `<url>; rel="…"` entry of the
pagination-relation header; malformed entries yield `none` and are skipped
individually. -/
def parseLinkSegment (seg : List Char) : Option (String × String) :=
  match (splitOnChar ';' seg).map trimSpaces with
  | [] => none
  | url :: params =>
    match url with
    | '<' :: urest =>
      if urest.getLast? = some '>' then
        match findRel params with
        | some rel => some (⟨urest.dropLast⟩, ⟨rel⟩)
        | none => none
      else none
    | _ => none

/-- The `page` query parameter of a URL, when present and numeric. -/
def pageParam (url : String) : Option Int :=
  (splitOnChar '&' (breakQ url.data).2).findSome? fun kv =>
    match breakEq kv with
    | (k, v) => if k = "page".data ∧ v ≠ [] then parseInt? ⟨v⟩ else none

structure PageInfo where
  next : Int
  prev : Int
  first : Int
  last : Int
deriving DecidableEq

def applyLink (pl : PageInfo) (seg : String × String) : PageInfo :=
  match pageParam seg.1 with
  | none => pl
  | some p =>
    if seg.2 = "next" then { pl with next := p }
    else if seg.2 = "prev" then { pl with prev := p }
    else if seg.2 = "first" then { pl with first := p }
    else if seg.2 = "last" then { pl with last := p }
    else pl

def applyLinks (pairs : List (String × String)) : PageInfo :=
  pairs.foldl applyLink ⟨0, 0, 0, 0⟩

/-- Modelled from the spec: pagination-relation parsing — "the relation
header encodes zero or more (url, relation) pairs …; each relation's `page`
query parameter (if present) becomes the corresponding envelope field;
missing relations leave the field at its zero value …  Malformed relation
entries are ignored individually rather than failing the whole parse." -/
def populatePages (link : String) : PageInfo :=
  applyLinks ((splitOnChar ',' link.data).filterMap parseLinkSegment)

/-- Transcribed from the source: `type Rate struct` with `Limit int`,
`Remaining int`, `Reset Timestamp`. -/
structure Rate where
  Limit : Int
  Remaining : Int
  Reset : Timestamp
deriving DecidableEq

def lookupHeader (hs : List (String × String)) (k : String) : Option String := hs.lookup k

/-- Modelled from the spec: "rate-limit headers for limit/remaining/reset
(reset expressed as a Unix timestamp)"; a missing or non-numeric header
leaves the zero value. -/
def parseRate (hs : List (String × String)) : Rate :=
  { Limit := ((lookupHeader hs "X-RateLimit-Limit").bind parseInt?).getD 0,
    Remaining := ((lookupHeader hs "X-RateLimit-Remaining").bind parseInt?).getD 0,
    Reset := ⟨((lookupHeader hs "X-RateLimit-Reset").bind parseInt?).getD 0⟩ }

/-- Transcribed from the source: `type Response struct` embedding
`*http.Response` with `NextPage`, `PrevPage`, `FirstPage`, `LastPage` and an
embedded `Rate`. -/
structure Response where
  Response : HttpResponse
  NextPage : Int
  PrevPage : Int
  FirstPage : Int
  LastPage : Int
  Rate : Rate
deriving DecidableEq

/-- Modelled from the spec: construction of the response envelope — the
pagination fields come from the `Link` header, the rate snapshot from the
rate-limit headers, both best-effort. -/
def newResponse (r : HttpResponse) : Response :=
  { Response := r,
    NextPage := (populatePages ((lookupHeader r.headers "Link").getD "")).next,
    PrevPage := (populatePages ((lookupHeader r.headers "Link").getD "")).prev,
    FirstPage := (populatePages ((lookupHeader r.headers "Link").getD "")).first,
    LastPage := (populatePages ((lookupHeader r.headers "Link").getD "")).last,
    Rate := parseRate r.headers }

/-! ## URLs, requests and the client -/

/-- Models the part of `net/url.URL` the client uses. -/
structure URL where
  Scheme : String
  Host : String
  Path : String
  RawQuery : String
deriving DecidableEq

def URL.toStr (u : URL) : String :=
  u.Scheme ++ "://" ++ u.Host ++ u.Path ++
    (if u.RawQuery = "" then "" else "?" ++ u.RawQuery)

def splitSlash : List Char → List (List Char)
  | [] => [[]]
  | ch :: rest =>
    if ch = '/' then [] :: splitSlash rest
    else
      match splitSlash rest with
      | s :: ss => (ch :: s) :: ss
      | [] => [[ch]]

def joinSlash : List (List Char) → List Char
  | [] => []
  | [s] => s
  | s :: ss => s ++ '/' :: joinSlash ss

/-- Drop the top path segment, keeping the root. -/
def popSeg : List (List Char) → List (List Char)
  | [] => []
  | [x] => [x]
  | _ :: t => t

/-- RFC 3986 section 5.2.4 over a segment stack: `.` and `..` segments are
interpreted, anything else is copied. -/
def rdsCore : List (List Char) → List (List Char) → List (List Char)
  | stack, [] => stack.reverse
  | stack, [s] =>
    if s = ['.'] then (([] : List Char) :: stack).reverse
    else if s = ['.', '.'] then (([] : List Char) :: popSeg stack).reverse
    else (s :: stack).reverse
  | stack, s :: rest =>
    if s = ['.'] then rdsCore stack rest
    else if s = ['.', '.'] then rdsCore (popSeg stack) rest
    else rdsCore (s :: stack) rest

def removeDotSegments (p : String) : String := ⟨joinSlash (rdsCore [] (splitSlash p.data))⟩

/-- A reference is outside the plain relative fragment when a colon occurs
in its first path segment (a scheme or opaque form). -/
def hasEarlyColon : List Char → Bool
  | [] => false
  | ch :: rest =>
    if ch = ':' then true
    else if ch = '/' ∨ ch = '?' then false
    else hasEarlyColon rest

/-- Split at the first `:`, dropping it. -/
def splitScheme : List Char → Option (List Char × List Char)
  | [] => none
  | ch :: rest =>
    if ch = ':' then some ([], rest)
    else (splitScheme rest).map fun pr => (ch :: pr.1, pr.2)

/-- Host part: everything up to the first `/` or `?`. -/
def breakHost : List Char → List Char × List Char
  | [] => ([], [])
  | ch :: rest =>
    if ch = '/' ∨ ch = '?' then ([], ch :: rest)
    else ((breakHost rest).1.cons ch, (breakHost rest).2)

inductive URLRef where
  | abs (u : URL)
  | rel (path : String) (query : String)
deriving DecidableEq

/-- Modelled from the spec: `url.Parse` restricted to the reference forms
the client uses — an absolute `scheme://host/path?query` URL, or a plain
relative `path?query` reference.  A reference whose first segment contains
a colon without `//` following (an opaque form) is outside the modelled
fragment and fails to parse. -/
def parseRef (s : String) : Option URLRef :=
  if hasEarlyColon s.data then
    match splitScheme s.data with
    | some (sch, '/' :: '/' :: rest) =>
      some (.abs { Scheme := ⟨sch⟩, Host := ⟨(breakHost rest).1⟩,
                   Path := ⟨(breakQ (breakHost rest).2).1⟩,
                   RawQuery := ⟨(breakQ (breakHost rest).2).2⟩ })
    | _ => none
  else
    some (.rel ⟨(breakQ s.data).1⟩ ⟨(breakQ s.data).2⟩)

/-- Prefix of a path up to and including its last slash. -/
def lastSlashPrefix (cs : List Char) : List Char :=
  (cs.reverse.dropWhile (fun ch => ch ≠ '/')).reverse

/-- Modelled from the spec: RFC 3986 reference resolution as performed by
`net/url.(*URL).ResolveReference`, restricted to the modelled URL shape. -/
def resolveReference (base : URL) (ref : URLRef) : URL :=
  match ref with
  | .abs u => { u with Path := removeDotSegments u.Path }
  | .rel p q =>
    if p.data = [] then { base with RawQuery := if q = "" then base.RawQuery else q }
    else if p.data.head? = some '/' then
      { base with Path := removeDotSegments p, RawQuery := q }
    else
      { base with Path := removeDotSegments ⟨lastSlashPrefix base.Path.data ++ p.data⟩,
                  RawQuery := q }

/-- Models `net/http.Request` at the level the core builds it. -/
structure Request where
  Method : String
  URL : URL
  Body : Option Json
  Headers : List (String × String)

/-- Models `net/http.Client` opaquely: only its identity matters to the
embedding. -/
structure HttpClient where
  Transport : Option String
deriving DecidableEq

/-- Models the distinguished `http.DefaultClient` of the standard library. -/
def http.DefaultClient : HttpClient := { Transport := none }

/-- Transcribed from the source: `type Client struct` — `BaseURL`,
`UploadURL`, `UserAgent`, `Rate` and the unexported `httpClient`.  The
per-service façade pointers (Activity, Gists, …) are outside the modelled
core. -/
structure Client where
  httpClient : HttpClient
  BaseURL : URL
  UploadURL : URL
  UserAgent : String
  Rate : Rate
deriving DecidableEq

def defaultBaseURL : URL :=
  { Scheme := "https", Host := "api.github.com", Path := "/", RawQuery := "" }

def uploadBaseURL : URL :=
  { Scheme := "https", Host := "uploads.github.com", Path := "/", RawQuery := "" }

def userAgent : String := "go-github/0.1"

def mediaTypeV3 : String := "application/vnd.github.v3+json"

/-- Modelled from the spec: the body of `NewClient` is absent from the
source file (doc comment: "NewClient returns a new GitHub API client.  If a
nil httpClient is provided, http.DefaultClient will be used.").  The
returned client carries the default API and upload base URLs. -/
def NewClient (httpClient : Option HttpClient) : Client :=
  { httpClient := httpClient.getD http.DefaultClient,
    BaseURL := defaultBaseURL, UploadURL := uploadBaseURL,
    UserAgent := userAgent, Rate := ⟨0, 0, ⟨0⟩⟩ }

/-- Modelled from the spec: the body of `NewRequest` is absent from the
source file (doc comment: "A relative URL can be provided in urlStr, in
which case it is resolved relative to the BaseURL of the Client.  Relative
URLs should always be specified without a preceding slash.").  The body, if
any, is JSON-encoded with a `Content-Type: application/json` header; the
fixed `Accept` header and the client's `User-Agent` are always attached. -/
def Client.NewRequest (c : Client) (method urlStr : String) (body : Option Json) :
    Option Request :=
  match parseRef urlStr with
  | none => none
  | some ref =>
    some { Method := method,
           URL := resolveReference c.BaseURL ref,
           Body := body,
           Headers :=
             (match body with
               | some _ => [("Content-Type", "application/json")]
               | none => []) ++
               [("Accept", mediaTypeV3), ("User-Agent", c.UserAgent)] }

/-- Modelled from the spec: the body of `Do` is absent from the source file
(doc comment: "Do sends an API request and returns the API response.").
The transport's raw response is a parameter; the envelope is built, the
client's shared `Rate` field is updated from it unconditionally, and the
response is classified by `CheckResponse`. -/
def Client.Do (c : Client) (resp : HttpResponse) :
    Client × Response × Option APIError :=
  ({ c with Rate := (newResponse resp).Rate }, newResponse resp, CheckResponse resp)

/-! ## Claims about the error classifier, rate cache and client -/

/-- C2: for every HTTP response with status 404 and body
`{"message":"Not Found"}` (no `errors` key), `CheckResponse` produces a
structured `ErrorResponse` whose `Message` is `"Not Found"` and whose
`Errors` sequence is empty — not the status-only fallback. -/
theorem C2_structured_not_found (st : String) (hs : List (String × String)) :
    CheckResponse
        { statusCode := 404, status := st, headers := hs,
          body := "\x7b\"message\":\"Not Found\"\x7d" }
      = some (.structured
          { Response :=
              { statusCode := 404, status := st, headers := hs,
                body := "\x7b\"message\":\"Not Found\"\x7d" },
            Message := "Not Found", Errors := [] }) := rfl

/-- C3: `CheckResponse` returns no error exactly when the status code lies
in 200–299; every other status yields an error. -/
theorem C3_success_iff_2xx (r : HttpResponse) :
    CheckResponse r = none ↔ (200 ≤ r.statusCode ∧ r.statusCode ≤ 299) := by
  by_cases h : 200 ≤ r.statusCode ∧ r.statusCode ≤ 299
  · rw [CheckResponse, if_pos h]
    simp [h]
  · rw [CheckResponse, if_neg h]
    cases hd : decodeErrorResponse r.body with
    | none => simp [h]
    | some pr =>
      obtain ⟨msg, errs⟩ := pr
      simp [h]

/-- C4: for every non-2xx response whose body is empty or does not decode
as the error-response shape, `CheckResponse` returns the status-only error
carrying the status code, status text and raw response; the classifier is a
total function, so no decode failure can escape it. -/
theorem C4_opaque_fallback (r : HttpResponse)
    (h1 : ¬(200 ≤ r.statusCode ∧ r.statusCode ≤ 299))
    (h2 : decodeErrorResponse r.body = none) :
    CheckResponse r = some (.statusOnly r.statusCode r.status r) := by
  rw [CheckResponse, if_neg h1, h2]

/-- A concrete server-error response with an empty body. -/
def emptyBody500 : HttpResponse :=
  { statusCode := 500, status := "500 Internal Server Error", headers := [], body := "" }

/-- Witness for C4 at status 500 with an empty body. -/
theorem C4_opaque_fallback_witness :
    (¬(200 ≤ 500 ∧ 500 ≤ 299))
    ∧ decodeErrorResponse "" = none
    ∧ CheckResponse emptyBody500
      = some (.statusOnly 500 "500 Internal Server Error" emptyBody500) :=
  ⟨by decide, rfl, C4_opaque_fallback emptyBody500 (by decide) rfl⟩

/-- C6: after every call through `Do`, the client's shared `Rate` field
holds exactly the values parsed from the response's rate-limit headers —
unconditionally, whatever the status or classification outcome — and on the
concrete headers limit=5000, remaining=4999, reset=1372700873 the parse
yields exactly those three values. -/
theorem C6_rate_cache_updated (c : Client) (resp : HttpResponse) :
    ((Client.Do c resp).1).Rate = parseRate resp.headers
    ∧ parseRate [("X-RateLimit-Limit", "5000"), ("X-RateLimit-Remaining", "4999"),
        ("X-RateLimit-Reset", "1372700873")]
      = { Limit := 5000, Remaining := 4999, Reset := ⟨1372700873⟩ } :=
  ⟨rfl, by decide⟩

/-- C10: `NewClient nil` returns a fully usable client: it carries
`http.DefaultClient`, and a request built from it resolves against the
default base URL with the standard headers attached. -/
theorem C10_newClient_nil_default :
    (NewClient none).httpClient = http.DefaultClient
    ∧ ((NewClient none).NewRequest "GET" "user" none).map (fun req => req.URL.toStr)
        = some "https://api.github.com/user"
    ∧ ((NewClient none).NewRequest "GET" "user" none).map (fun req => req.Headers)
        = some [("Accept", mediaTypeV3), ("User-Agent", userAgent)] :=
  ⟨rfl, by decide, rfl⟩

/-! ## Claim C5: pagination parsing -/

def lastD (l : List Int) (x : Int) : Int := l.foldl (fun _ y => y) x

theorem lastD_cons (a : Int) (l : List Int) (x : Int) : lastD (a :: l) x = lastD l a := rfl

/-- The pages announced for one relation, in header order. -/
def relPages (pairs : List (String × String)) (rel : String) : List Int :=
  pairs.filterMap fun pr => if pr.2 = rel then pageParam pr.1 else none

/-- The page the envelope reports for one relation: the last announced one,
else 0. -/
def relPage (pairs : List (String × String)) (rel : String) : Int :=
  lastD (relPages pairs rel) 0

theorem applyLinks_foldl (pairs : List (String × String)) :
    ∀ acc : PageInfo, pairs.foldl applyLink acc =
      { next := lastD (relPages pairs "next") acc.next,
        prev := lastD (relPages pairs "prev") acc.prev,
        first := lastD (relPages pairs "first") acc.first,
        last := lastD (relPages pairs "last") acc.last } := by
  induction pairs with
  | nil => intro acc; rfl
  | cons pr rest ih =>
    intro acc
    obtain ⟨u, rel⟩ := pr
    rw [List.foldl_cons, ih]
    cases hp : pageParam u with
    | none => simp [applyLink, hp, relPages, List.filterMap_cons]
    | some p =>
      by_cases h1 : rel = "next"
      · subst h1
        simp [applyLink, hp, relPages, List.filterMap_cons, lastD_cons]
      · by_cases h2 : rel = "prev"
        · subst h2
          simp [applyLink, hp, relPages, List.filterMap_cons, lastD_cons]
        · by_cases h3 : rel = "first"
          · subst h3
            simp [applyLink, hp, relPages, List.filterMap_cons, lastD_cons]
          · by_cases h4 : rel = "last"
            · subst h4
              simp [applyLink, hp, relPages, List.filterMap_cons, lastD_cons]
            · simp [applyLink, hp, relPages, List.filterMap_cons, h1, h2, h3, h4]

theorem relPages_nil_of_no_rel (pairs : List (String × String)) (rel : String)
    (h : ∀ pr ∈ pairs, pr.2 ≠ rel) : relPages pairs rel = [] := by
  induction pairs with
  | nil => rfl
  | cons pr rest ih =>
    unfold relPages
    rw [List.filterMap_cons, if_neg (h pr (List.mem_cons_self _ _))]
    exact ih fun x hx => h x (List.mem_cons_of_mem _ hx)

/-- A concrete response whose Link header announces `rel="next"` with
`page=3` and `rel="last"` with `page=10`. -/
def linkedResponse : HttpResponse :=
  { statusCode := 200, status := "200 OK",
    headers :=
      [("Link",
        "<https://api.github.com/user/repos?page=3&per_page=100>; rel=\"next\", <https://api.github.com/user/repos?page=10&per_page=100>; rel=\"last\"")],
    body := "" }

/-- C5: on a Link header carrying `rel="next"` with `page=3` and
`rel="last"` with `page=10` and no other relations, the envelope reports
`NextPage=3`, `LastPage=10`, `PrevPage=0`, `FirstPage=0`; in general each
relation's last announced `page` parameter becomes the corresponding field
and a relation that never occurs leaves its field at zero. -/
theorem C5_pagination_envelope :
    ((newResponse linkedResponse).NextPage = 3
      ∧ (newResponse linkedResponse).LastPage = 10
      ∧ (newResponse linkedResponse).PrevPage = 0
      ∧ (newResponse linkedResponse).FirstPage = 0)
    ∧ (∀ pairs : List (String × String),
        applyLinks pairs
          = { next := relPage pairs "next", prev := relPage pairs "prev",
              first := relPage pairs "first", last := relPage pairs "last" })
    ∧ (∀ pairs rel, (∀ pr ∈ pairs, pr.2 ≠ rel) → relPage pairs rel = 0) := by
  refine ⟨⟨rfl, rfl, rfl, rfl⟩, ?_, ?_⟩
  · intro pairs
    exact applyLinks_foldl pairs ⟨0, 0, 0, 0⟩
  · intro pairs rel h
    rw [relPage, relPages_nil_of_no_rel pairs rel h]
    rfl

/-- Witness for C5's inner hypothesis: a pair list with no `"next"`
relation reports page 0 for it. -/
theorem C5_pagination_envelope_witness :
    (∀ pr ∈ [(("https://api.github.com/?page=7" : String), ("last" : String))],
        pr.2 ≠ "next")
    ∧ relPage [("https://api.github.com/?page=7", "last")] "next" = 0 :=
  ⟨by decide, C5_pagination_envelope.2.2 [("https://api.github.com/?page=7", "last")]
    "next" (by decide)⟩

/-! ## Claim C1: optional-field encoding -/

/-- Transcribed from the source: `func Bool(v bool) *bool` — "Bool is a
helper routine that allocates a new bool value to store v and returns a
pointer to it." -/
def github.Bool (v : Bool) : Option Bool := some v

/-- Transcribed from the source: `func Int(v int) *int`. -/
def github.Int (v : Int) : Option Int := some v

/-- Transcribed from the source: `func String(v string) *string`. -/
def github.String (v : String) : Option String := some v

/-- A `User` with every optional field unset and no text matches. -/
def emptyUser : User :=
  ⟨none, none, none, none, none, none, none, none, none, none, none, none,
    none, none, none, none, none, none, none, none, none, none, none, none,
    none, none, none, none, none, none, none, none, none, none, none, none, []⟩

theorem user_keys_nodup (u : User) :
    ((User.fieldDescrs u).map (fun d => d.1)).Nodup := by
  have h : (User.fieldDescrs u).map (fun d => d.1)
      = ["login", "id", "avatar_url", "html_url", "gravatar_id", "name", "company",
         "blog", "location", "email", "hireable", "bio", "public_repos",
         "public_gists", "followers", "following", "created_at", "updated_at",
         "type", "site_admin", "total_private_repos", "owned_private_repos",
         "private_gists", "disk_usage", "collaborators", "plan", "url",
         "events_url", "following_url", "followers_url", "gists_url",
         "organizations_url", "received_events_url", "repos_url", "starred_url",
         "subscriptions_url", "text_matches"] := rfl
  rw [h]
  decide

/-- The spec's universal omit-when-unset rule fails at `GitObject`: its
`type` tag carries no `omitempty`, so an all-unset `GitObject` encodes the
field as an explicit JSON `null` instead of omitting it. -/
theorem C1_counterexample :
    (marshalFields (GitObject.fieldDescrs ⟨none, none, none⟩)).lookup "type"
        = some Json.null
    ∧ (marshalFields (GitObject.fieldDescrs ⟨none, none, none⟩)).lookup "type"
        ≠ none := by
  refine ⟨rfl, ?_⟩
  rw [show (marshalFields (GitObject.fieldDescrs ⟨none, none, none⟩)).lookup "type"
      = some Json.null from rfl]
  exact Option.some_ne_none _

/-- C1 (amended): every pointer field of `User` is tagged `omitempty`, and
for any such field an unset value is omitted from the encoding while a set
value — including an explicit zero built by the `Bool`/`Int`/`String`
helpers — emits the literal value, so unset and set-to-zero never collide;
but the rule is not universal across resource structs: a pointer field
declared without `omitempty`, such as `GitObject`'s `type`, encodes an
unset value as an explicit JSON `null` rather than omitting the field. -/
theorem C1_optional_field_encoding :
    (∀ u : User, (User.fieldDescrs u).map (fun d => d.2.1) = List.replicate 37 true)
    ∧ (∀ (u : User) (n : String) (v : Option Json),
        (n, true, GoVal.ptr v) ∈ User.fieldDescrs u →
          (v = none → (marshalFields (User.fieldDescrs u)).lookup n = none)
          ∧ ∀ j, v = some j → (marshalFields (User.fieldDescrs u)).lookup n = some j)
    ∧ (∀ u : User,
        (marshalFields (User.fieldDescrs
            { u with Hireable := github.Bool false })).lookup "hireable"
          = some (Json.bool false)
        ∧ (marshalFields (User.fieldDescrs
            { u with Hireable := none })).lookup "hireable" = none)
    ∧ (∀ g : GitObject, g.Type' = none →
        (marshalFields (GitObject.fieldDescrs g)).lookup "type" = some Json.null) := by
  have key : ∀ (u : User) (n : String) (v : Option Json),
      (n, true, GoVal.ptr v) ∈ User.fieldDescrs u →
        (v = none → (marshalFields (User.fieldDescrs u)).lookup n = none)
        ∧ ∀ j, v = some j → (marshalFields (User.fieldDescrs u)).lookup n = some j := by
    intro u n v hmem
    constructor
    · rintro rfl
      rw [lookup_marshalFields_ptr (User.fieldDescrs u) n true none hmem
        (user_keys_nodup u)]
    · rintro j rfl
      rw [lookup_marshalFields_ptr (User.fieldDescrs u) n true (some j) hmem
        (user_keys_nodup u)]
  refine ⟨fun u => rfl, key, ?_, ?_⟩
  · intro u
    constructor
    · refine (key _ "hireable" (some (Json.bool false)) ?_).2 _ rfl
      simp [User.fieldDescrs, fdBool, github.Bool]
    · refine (key _ "hireable" none ?_).1 rfl
      simp [User.fieldDescrs, fdBool]
  · intro g hg
    have hm : ("type", false, GoVal.ptr none) ∈ GitObject.fieldDescrs g := by
      simp [GitObject.fieldDescrs, fdStr, hg]
    have hnd : ((GitObject.fieldDescrs g).map (fun d => d.1)).Nodup := by
      have h : (GitObject.fieldDescrs g).map (fun d => d.1) = ["type", "sha", "url"] :=
        rfl
      rw [h]
      decide
    rw [lookup_marshalFields_ptr (GitObject.fieldDescrs g) "type" false none hm hnd]

/-- Witness for C1: the `hireable` field of a `User` built with the helper
constructor `Bool false` encodes to the literal `false`. -/
theorem C1_optional_field_encoding_witness :
    (("hireable", true, GoVal.ptr (some (Json.bool false)))
        ∈ User.fieldDescrs { emptyUser with Hireable := some false })
    ∧ (marshalFields (User.fieldDescrs
        { emptyUser with Hireable := some false })).lookup "hireable"
      = some (Json.bool false) := by
  have hm : ("hireable", true, GoVal.ptr (some (Json.bool false)))
      ∈ User.fieldDescrs { emptyUser with Hireable := some false } := by
    simp [User.fieldDescrs, fdBool, emptyUser]
  exact ⟨hm,
    (C1_optional_field_encoding.2.1 _ "hireable" (some (Json.bool false)) hm).2 _ rfl⟩

/-! ## Claim C9: the Event.Public exception -/

/-- C9: `Event.Public` is tagged `json:"public"` with no `omitempty`, so
every encoded `Event` carries a `public` key — an explicit `null` when the
pointer is unset, the literal boolean when set — an exception to the
omit-when-unset convention. -/
theorem C9_event_public_null (e : Event) :
    (marshalFields (Event.fieldDescrs e)).lookup "public"
      = some (match e.Public with
              | none => Json.null
              | some b => Json.bool b) := by
  have hm : ("public", false, GoVal.ptr (e.Public.map Json.bool))
      ∈ Event.fieldDescrs e := by
    simp [Event.fieldDescrs, fdBool]
  have h : (Event.fieldDescrs e).map (fun d => d.1)
      = ["type", "public", "payload", "repo", "actor", "org", "created_at", "id"] := rfl
  have hnd : ((Event.fieldDescrs e).map (fun d => d.1)).Nodup := by
    rw [h]
    decide
  rw [lookup_marshalFields_ptr (Event.fieldDescrs e) "public" false
    (e.Public.map Json.bool) hm hnd]
  cases e.Public with
  | none => rfl
  | some b => rfl

/-! ## Claim C7: dual-form timestamp decoding -/

/-- C7: for a valid civil instant, decoding its quoted RFC3339 rendering
succeeds; re-encoding that timestamp and decoding again yields a timestamp
`Equal` to it (time-value equality, whatever the text); and decoding the
Unix-integer rendering of the same instant also yields a timestamp `Equal`
to the RFC3339 decoding — the two wire forms are caller-indistinguishable. -/
theorem C7_timestamp_dual_decode (c : CivilTime) (h : validCivil c)
    (h0 : 0 ≤ c.year) (h9 : c.year ≤ 9999) :
    ∃ t : Timestamp,
      Timestamp.UnmarshalJSON ⟨'"' :: renderRFC3339Chars c ++ ['"']⟩ = some t
      ∧ (∃ t' : Timestamp,
          Timestamp.UnmarshalJSON (Timestamp.MarshalJSON t) = some t' ∧ t'.Equal t)
      ∧ (∃ t'' : Timestamp,
          Timestamp.UnmarshalJSON (intToString (civilToSecs c)) = some t''
          ∧ t''.Equal t) := by
  refine ⟨⟨civilToSecs c⟩, UnmarshalJSON_quoted_render c h h0 h9,
    ⟨⟨civilToSecs c⟩, ?_, ?_⟩, ⟨civilToSecs c⟩, UnmarshalJSON_intToString _, ?_⟩
  · rw [MarshalJSON_civilToSecs c h, UnmarshalJSON_quoted_render c h h0 h9]
  · simp [Timestamp.Equal]
  · simp [Timestamp.Equal]

/-- Witness for C7 at the instant 2013-07-01T17:47:53Z. -/
theorem C7_timestamp_dual_decode_witness :
    validCivil ⟨2013, 7, 1, 17, 47, 53⟩
    ∧ ∃ t : Timestamp,
        Timestamp.UnmarshalJSON
            ⟨'"' :: renderRFC3339Chars ⟨2013, 7, 1, 17, 47, 53⟩ ++ ['"']⟩ = some t
        ∧ (∃ t' : Timestamp,
            Timestamp.UnmarshalJSON (Timestamp.MarshalJSON t) = some t' ∧ t'.Equal t)
        ∧ (∃ t'' : Timestamp,
            Timestamp.UnmarshalJSON (intToString (civilToSecs ⟨2013, 7, 1, 17, 47, 53⟩))
              = some t''
            ∧ t''.Equal t) :=
  ⟨by decide, C7_timestamp_dual_decode ⟨2013, 7, 1, 17, 47, 53⟩ (by decide) (by decide)
    (by decide)⟩

/-! ## Claim C8: base-relative request URLs -/

theorem str_append_data (a b : String) : a ++ b = ⟨a.data ++ b.data⟩ := by
  cases a
  cases b
  rfl

theorem str_append_nil (a : String) : a ++ "" = a := by
  cases a with
  | mk l =>
    show (⟨l ++ []⟩ : String) = ⟨l⟩
    rw [List.append_nil]

theorem str_append_assoc (a b c : String) : a ++ b ++ c = a ++ (b ++ c) := by
  rw [str_append_data a b, str_append_data b c, str_append_data, str_append_data]
  show (⟨a.data ++ b.data ++ c.data⟩ : String) = ⟨a.data ++ (b.data ++ c.data)⟩
  rw [List.append_assoc]

theorem splitSlash_ne_nil : ∀ cs : List Char, splitSlash cs ≠ []
  | [] => by simp [splitSlash]
  | ch :: rest => by
    by_cases h : ch = '/'
    · simp [splitSlash, h]
    · simp only [splitSlash, if_neg h]
      cases hs : splitSlash rest <;> simp

theorem joinSlash_splitSlash : ∀ cs : List Char, joinSlash (splitSlash cs) = cs
  | [] => rfl
  | ch :: rest => by
    by_cases h : ch = '/'
    · subst h
      rw [show splitSlash ('/' :: rest) = [] :: splitSlash rest from by
        simp [splitSlash]]
      cases hs : splitSlash rest with
      | nil => exact absurd hs (splitSlash_ne_nil rest)
      | cons s ss =>
        rw [show joinSlash ([] :: s :: ss) = '/' :: joinSlash (s :: ss) from rfl]
        rw [← hs, joinSlash_splitSlash rest]
    · rw [show splitSlash (ch :: rest)
          = (match splitSlash rest with
              | s :: ss => (ch :: s) :: ss
              | [] => [[ch]]) from by simp [splitSlash, h]]
      cases hs : splitSlash rest with
      | nil => exact absurd hs (splitSlash_ne_nil rest)
      | cons s ss =>
        rw [show (match (s :: ss : List (List Char)) with
            | s :: ss => (ch :: s) :: ss
            | [] => [[ch]]) = (ch :: s) :: ss from rfl]
        have hj : joinSlash ((ch :: s) :: ss) = ch :: joinSlash (s :: ss) := by
          cases ss <;> rfl
        rw [hj, ← hs, joinSlash_splitSlash rest]

theorem rdsCore_no_dots : ∀ (segs stack : List (List Char)),
    (∀ s ∈ segs, s ≠ ['.'] ∧ s ≠ ['.', '.']) →
      rdsCore stack segs = stack.reverse ++ segs
  | [], stack, _ => by simp [rdsCore]
  | [s], stack, h => by
    obtain ⟨h1, h2⟩ := h s (List.mem_singleton_self s)
    simp [rdsCore, h1, h2]
  | s :: s2 :: rest, stack, h => by
    obtain ⟨h1, h2⟩ := h s (List.mem_cons_self _ _)
    rw [show rdsCore stack (s :: s2 :: rest) = rdsCore (s :: stack) (s2 :: rest) from by
      simp [rdsCore, h1, h2]]
    rw [rdsCore_no_dots (s2 :: rest) (s :: stack)
      (fun x hx => h x (List.mem_cons_of_mem _ hx))]
    simp

theorem removeDotSegments_no_dots (cs : List Char)
    (h : ∀ s ∈ splitSlash cs, s ≠ ['.'] ∧ s ≠ ['.', '.']) :
    removeDotSegments ⟨cs⟩ = ⟨cs⟩ := by
  rw [removeDotSegments]
  show (⟨joinSlash (rdsCore [] (splitSlash cs))⟩ : String) = ⟨cs⟩
  rw [rdsCore_no_dots (splitSlash cs) [] h, List.reverse_nil, List.nil_append,
    joinSlash_splitSlash]

theorem breakQ_no_q : ∀ cs : List Char, '?' ∉ cs → breakQ cs = (cs, [])
  | [], _ => rfl
  | ch :: rest, h => by
    have hch : ¬(ch = '?') := fun he => h (he ▸ List.mem_cons_self _ _)
    have ih := breakQ_no_q rest (fun hm => h (List.mem_cons_of_mem _ hm))
    rw [breakQ, if_neg hch, ih]

theorem lastSlashPrefix_slash (cs : List Char) (h : cs.getLast? = some '/') :
    lastSlashPrefix cs = cs := by
  rw [lastSlashPrefix]
  cases hr : cs.reverse with
  | nil =>
    have h0 : cs = [] := by simpa using congrArg List.reverse hr
    rw [h0] at h
    cases h
  | cons a t =>
    have h1 : cs.reverse.head? = some '/' := by rw [List.head?_reverse]; exact h
    rw [hr] at h1
    have ha : a = '/' := (Option.some.inj h1)
    subst ha
    rw [List.dropWhile_cons, if_neg (by decide), ← hr, List.reverse_reverse]

/-- The spec's exact-concatenation reading fails on dot segments:
`"../foo"` against the default base (which ends in `/`, while the path does
not start with one) resolves through RFC 3986 dot-segment removal to
`https://api.github.com/foo`, not to `base ++ "../foo"`. -/
theorem C8_counterexample :
    ((NewClient none).NewRequest "GET" "../foo" none).map (fun req => req.URL.toStr)
        = some "https://api.github.com/foo"
    ∧ (NewClient none).BaseURL.Path.data.getLast? = some '/'
    ∧ ("../foo" : String).data.head? ≠ some '/'
    ∧ (NewClient none).BaseURL.toStr ++ "../foo" ≠ "https://api.github.com/foo" := by
  refine ⟨rfl, rfl, by decide, by decide⟩

/-- C8 (amended): for a base URL whose path ends in `/` and carries no
query, and a relative reference that is non-empty, does not start with `/`,
has no early colon, no query part and — merged onto the base path — no `.`
or `..` segments, `NewRequest` resolves the request URL to exactly
`base ++ path`; dot segments (and the other excluded forms) are instead
interpreted by RFC 3986 resolution, as `C8_counterexample` shows. -/
theorem C8_newRequest_concat (c : Client) (m p : String) (b : Option Json)
    (hslash : c.BaseURL.Path.data.getLast? = some '/')
    (hq0 : c.BaseURL.RawQuery = "")
    (hne : p.data ≠ [])
    (hnoslash : ¬p.data.head? = some '/')
    (hnocolon : hasEarlyColon p.data = false)
    (hnoq : '?' ∉ p.data)
    (hnodots : ∀ s ∈ splitSlash (c.BaseURL.Path.data ++ p.data),
        s ≠ ['.'] ∧ s ≠ ['.', '.']) :
    ∃ req : Request, c.NewRequest m p b = some req
      ∧ req.URL.toStr = c.BaseURL.toStr ++ p := by
  have hbq : breakQ p.data = (p.data, []) := breakQ_no_q p.data hnoq
  have hpr : parseRef p = some (.rel ⟨p.data⟩ "") := by
    simp [parseRef, hnocolon, hbq]
  refine ⟨{ Method := m,
            URL := resolveReference c.BaseURL (.rel ⟨p.data⟩ ""),
            Body := b,
            Headers :=
              (match b with
                | some _ => [("Content-Type", "application/json")]
                | none => []) ++
                [("Accept", mediaTypeV3), ("User-Agent", c.UserAgent)] }, ?_, ?_⟩
  · rw [Client.NewRequest.eq_def, hpr]
  · show (resolveReference c.BaseURL (.rel ⟨p.data⟩ "")).toStr = c.BaseURL.toStr ++ p
    simp only [resolveReference]
    rw [if_neg hne, if_neg hnoslash, lastSlashPrefix_slash _ hslash,
      removeDotSegments_no_dots _ hnodots]
    simp only [URL.toStr]
    rw [hq0, if_pos rfl, str_append_nil, str_append_nil]
    rw [show (⟨c.BaseURL.Path.data ++ p.data⟩ : String) = c.BaseURL.Path ++ p from
      (str_append_data c.BaseURL.Path p).symm]
    rw [← str_append_assoc]
    rw [if_pos trivial, str_append_nil]

/-- Witness for C8 (amended): the relative path `user/repos` against the
default base resolves to exactly their concatenation. -/
theorem C8_newRequest_concat_witness :
    ('?' ∉ ("user/repos" : String).data)
    ∧ ∃ req : Request, (NewClient none).NewRequest "GET" "user/repos" none = some req
        ∧ req.URL.toStr = (NewClient none).BaseURL.toStr ++ "user/repos" :=
  ⟨by decide, C8_newRequest_concat (NewClient none) "GET" "user/repos" none (by decide)
    rfl (by decide) (by decide) (by decide) (by decide) (by decide)⟩
